import Mathlib

/-!
Shallow embedding of the xmm7360-pci driver's ring-protocol engine
(src/xmm7360.c) and proofs about its command ring, transfer-descriptor
rings, queue-pair lifecycle, read path, device handshake and probe
bring-up.

Machine integers are modelled as `Nat` with the truncations the C code
performs made explicit (`% 256` for a `u8` read of a `u32` cell,
`% 2^16` for storing into a `u16` field, and so on).  Shared-memory
stores that the C code performs in a specific order are additionally
recorded in an event trace (`Ev`), so that ordering claims such as
"the write pointer is published only after all entry fields are
written" are expressible as facts about the trace.
-/

namespace Xmm7360

/-- Command ring entry, mirroring `struct cmd_ring_entry`
(fields `ptr`, `len`, `parm`, `cmd`, `extra`, `unk`, `flags`). -/
structure CmdRingEntry where
  ptr : Nat
  len : Nat
  parm : Nat
  cmd : Nat
  extra : Nat
  unk : Nat
  flags : Nat
  deriving DecidableEq, Repr

/-- Transfer descriptor, mirroring `struct td_ring_entry`
(fields `addr`, `length`, `flags`, `unk`). -/
structure TdRingEntry where
  addr : Nat
  length : Nat
  flags : Nat
  unk : Nat
  deriving DecidableEq, Repr

/-- Host-side TD ring bookkeeping, mirroring `struct td_ring`.
`tds` is the TD array (indexed by slot), `pages` the per-slot buffer
pages (slot index, then byte offset).  A never-created ring has
`size = 0`, exactly as in the driver. -/
structure TdRing where
  size : Nat
  last_handled : Nat
  page_size : Nat
  tds : Nat → TdRingEntry
  tds_phys : Nat
  pages : Nat → Nat → Nat

/-- Whole-device state: the control page's command ring and pointers,
the 16 slave ring pointer pairs, the 16 TD rings, the 8 queue-pair
open flags, and the device's `status.asleep` word (read by `ding`). -/
structure Xmm where
  c_wptr : Nat
  c_rptr : Nat
  c_ring : Nat → CmdRingEntry
  s_wptr : Nat → Nat
  s_rptr : Nat → Nat
  td_ring : Nat → TdRing
  qp_open : Nat → Bool
  asleep : Bool

/-- Observable events emitted by the ring operations, in the order the
C code performs the corresponding stores / register writes. -/
inductive Ev where
  | cmdPtr (i : Nat)
  | cmdCmd (i : Nat)
  | cmdParm (i : Nat)
  | cmdLen (i : Nat)
  | cmdExtra (i : Nat)
  | cmdUnk (i : Nat)
  | cmdFlags (i : Nat)
  | cmdPublish (w : Nat)
  | wakeup
  | doorbell (bell : Nat)
  | tdSet (ring idx : Nat)
  | tdPublish (ring w : Nat)
  deriving DecidableEq, Repr

def CMD_RING_SIZE : Nat := 0x80
def CMD_RING_OPEN : Nat := 1
def CMD_RING_CLOSE : Nat := 3
def CMD_WAKEUP : Nat := 4
def CMD_FLAG_READY : Nat := 2
def DOORBELL_TD : Nat := 0
def DOORBELL_CMD : Nat := 1

/-- Events of `xmm7360_ding`: if the device reports itself asleep the
wakeup register is written first, then the doorbell register. -/
def dingEvs (asleep : Bool) (bell : Nat) : List Ev :=
  (if asleep then [Ev.wakeup] else []) ++ [Ev.doorbell bell]

/-- Store events of one successful `xmm7360_cmd_ring_submit`, in source
order: the seven entry fields at slot `i`, then the write-pointer
publish of `w`. -/
def cmdSubmitEvs (i w : Nat) : List Ev :=
  [Ev.cmdPtr i, Ev.cmdCmd i, Ev.cmdParm i, Ev.cmdLen i, Ev.cmdExtra i,
   Ev.cmdUnk i, Ev.cmdFlags i, Ev.cmdPublish w]

/-- Model of `xmm7360_cmd_ring_submit`.  Reads the `u32` write pointer
into a `u8` (`% 256`), computes `(wptr + 1) % CMD_RING_SIZE`; if that
equals the read pointer it returns `-EAGAIN` (= -11) without touching
anything; otherwise it fills the entry at the old write pointer
(truncating each argument to its C field width), sets the READY flag,
and only then publishes the new write pointer. -/
def cmd_ring_submit (x : Xmm) (cmd parm len ptr extra : Nat) :
    Int × Xmm × List Ev :=
  let wptr := x.c_wptr % 256
  let new_wptr := (wptr + 1) % CMD_RING_SIZE
  if new_wptr = x.c_rptr then (-11, x, [])
  else
    let e : CmdRingEntry :=
      { ptr := ptr % 2^64, len := len % 2^16, parm := parm % 2^8,
        cmd := cmd % 2^8, extra := extra % 2^32, unk := 0,
        flags := CMD_FLAG_READY }
    (0,
     { x with c_ring := Function.update x.c_ring wptr e, c_wptr := new_wptr },
     cmdSubmitEvs wptr new_wptr)

/-- Model of `xmm7360_td_ring_full`: reads the slave write pointer as a
`u8`, advances it by one masked with `size - 1`, and compares with the
slave read pointer. -/
def td_ring_full (x : Xmm) (rid : Nat) : Bool :=
  let ring := x.td_ring rid
  let wptr := x.s_wptr rid % 256
  let wptr := (wptr + 1) &&& (ring.size - 1)
  wptr == x.s_rptr rid

/-- Number of entries currently outstanding (published by the host and
not yet consumed by the device) on TD ring `rid`, for pointers below
the capacity: the write pointer's lead over the read pointer, modulo
the capacity.  This is the spec's "entries in flight" measure. -/
def outstanding (x : Xmm) (rid : Nat) : Nat :=
  let c := (x.td_ring rid).size
  (x.s_wptr rid + c - x.s_rptr rid) % c

/-- Effect of `memcpy(page, buf, len)` on a buffer page modelled as a
byte map: the first `buf.length` bytes come from `buf`, the rest keep
their old contents. -/
def memcpyBytes (dst : Nat → Nat) (buf : List Nat) : Nat → Nat :=
  fun i => if i < buf.length then buf.getD i 0 else dst i

/-- Model of `xmm7360_td_ring_write`.  `none` models a fired `BUG_ON`
(ring nonexistent, oversized write, odd ring id, or the post-advance
pointer landing on the read pointer).  Otherwise the data is copied
into the page at the current write slot, the TD's length (a `u16`) is
set and its flags cleared, and the advanced write pointer is
published. -/
def td_ring_write (x : Xmm) (rid : Nat) (buf : List Nat) :
    Option (Xmm × List Ev) :=
  let ring := x.td_ring rid
  let wptr := x.s_wptr rid % 256
  if ring.size = 0 then none
  else if ring.page_size < buf.length then none
  else if rid % 2 = 1 then none
  else
    let ring' : TdRing :=
      { ring with
        pages := Function.update ring.pages wptr (memcpyBytes (ring.pages wptr) buf),
        tds := Function.update ring.tds wptr
          { ring.tds wptr with length := buf.length % 2^16, flags := 0, unk := 0 } }
    let wptr' := (wptr + 1) &&& (ring.size - 1)
    if wptr' = x.s_rptr rid then none
    else
      some ({ x with td_ring := Function.update x.td_ring rid ring',
                     s_wptr := Function.update x.s_wptr rid wptr' },
            [Ev.tdSet rid wptr, Ev.tdPublish rid wptr'])

/-- Model of `xmm7360_td_ring_write_user`: identical to
`td_ring_write` except that the source bytes cross the user/kernel
boundary (`copy_from_user` instead of `memcpy`), which in this
embedding is the same byte copy. -/
def td_ring_write_user (x : Xmm) (rid : Nat) (buf : List Nat) :
    Option (Xmm × List Ev) :=
  let ring := x.td_ring rid
  let wptr := x.s_wptr rid % 256
  if ring.size = 0 then none
  else if ring.page_size < buf.length then none
  else if rid % 2 = 1 then none
  else
    let ring' : TdRing :=
      { ring with
        pages := Function.update ring.pages wptr (memcpyBytes (ring.pages wptr) buf),
        tds := Function.update ring.tds wptr
          { ring.tds wptr with length := buf.length % 2^16, flags := 0, unk := 0 } }
    let wptr' := (wptr + 1) &&& (ring.size - 1)
    if wptr' = x.s_rptr rid then none
    else
      some ({ x with td_ring := Function.update x.td_ring rid ring',
                     s_wptr := Function.update x.s_wptr rid wptr' },
            [Ev.tdSet rid wptr, Ev.tdPublish rid wptr'])

/-- Model of `xmm7360_td_ring_read` (the receive-slot post).  A zero
size or an even (send-direction) ring id only warns and returns with
no state change; otherwise the TD at the current write slot is
republished with full page capacity and cleared flags and the
advanced write pointer is published.  `none` models the `BUG_ON` of
the advanced pointer landing on the read pointer. -/
def td_ring_read (x : Xmm) (rid : Nat) : Option (Xmm × List Ev) :=
  let ring := x.td_ring rid
  let wptr := x.s_wptr rid % 256
  if ring.size = 0 then some (x, [])
  else if rid % 2 = 0 then some (x, [])
  else
    let ring' : TdRing :=
      { ring with
        tds := Function.update ring.tds wptr
          { ring.tds wptr with length := ring.page_size, flags := 0, unk := 0 } }
    let wptr' := (wptr + 1) &&& (ring.size - 1)
    if wptr' = x.s_rptr rid then none
    else
      some ({ x with td_ring := Function.update x.td_ring rid ring',
                     s_wptr := Function.update x.s_wptr rid wptr' },
            [Ev.tdSet rid wptr, Ev.tdPublish rid wptr'])

/-- Model of `xmm7360_td_ring_create`.  `none` models a fired `BUG_ON`
(ring already exists, or size not a power of two).  The ring struct is
reset, both slave pointers are zeroed, a `RING_OPEN` command (parm =
ring id, len = size, ptr = TD array bus address, extra = 0x60) is
submitted — its return value ignored, as in the source — and the
command doorbell is rung.  `tds_phys` and `pages_phys` stand for the
bus addresses handed out by the DMA allocator; freshly allocated pages
read as zero. -/
def td_ring_create (x : Xmm) (rid size : Nat) (tds_phys : Nat)
    (pages_phys : Nat → Nat) : Option (Xmm × List Ev) :=
  if (x.td_ring rid).size ≠ 0 then none
  else if size &&& (size - 1) ≠ 0 then none
  else
    let ring : TdRing :=
      { size := size, last_handled := 0, page_size := 0x1000,
        tds := fun i => if i < size
          then { addr := pages_phys i, length := 0, flags := 0, unk := 0 }
          else { addr := 0, length := 0, flags := 0, unk := 0 },
        tds_phys := tds_phys,
        pages := fun _ _ => 0 }
    let x := { x with td_ring := Function.update x.td_ring rid ring,
                      s_rptr := Function.update x.s_rptr rid 0,
                      s_wptr := Function.update x.s_wptr rid 0 }
    let r := cmd_ring_submit x CMD_RING_OPEN rid size tds_phys 0x60
    some (r.2.1, r.2.2 ++ dingEvs r.2.1.asleep DOORBELL_CMD)

/-- Model of `xmm7360_td_ring_destroy`.  Destroying a never-created
ring only warns and returns; otherwise a `RING_CLOSE` command is
submitted (return value ignored), the command doorbell is rung, the
buffer pages and TD array are freed and the size is zeroed. -/
def td_ring_destroy (x : Xmm) (rid : Nat) : Xmm × List Ev :=
  if (x.td_ring rid).size = 0 then (x, [])
  else
    let r := cmd_ring_submit x CMD_RING_CLOSE rid 0 0 0
    let x1 := r.2.1
    let ring' : TdRing := { x1.td_ring rid with size := 0 }
    ({ x1 with td_ring := Function.update x1.td_ring rid ring' },
     r.2.2 ++ dingEvs x1.asleep DOORBELL_CMD)

/-- Model of `xmm7360_qp_start`'s `while (!full) td_ring_read` loop.
The C loop is unbounded; here it carries a fuel argument, and `none`
covers both fuel exhaustion and a `BUG_ON` inside `td_ring_read`.  In
`qp_start` the loop runs on a freshly created ring of capacity 8 with
both pointers at 0, so fuel 8 reproduces the C loop exactly (it
reaches the full state after 7 posts). -/
def post_until_full (rid : Nat) : Nat → Xmm → Option (Xmm × List Ev)
  | 0, _ => none
  | fuel + 1, x =>
    if td_ring_full x rid then some (x, [])
    else
      match td_ring_read x rid with
      | none => none
      | some (x', evs) =>
        match post_until_full rid fuel x' with
        | none => none
        | some (x'', evs') => some (x'', evs ++ evs')

/-- Post events of the qp-start loop: starting from write slot `i`,
`j` successive receive-slot posts (`td_ring_read`s), each setting the
TD at the current slot and publishing the incremented pointer. -/
def postEvs (rid : Nat) : Nat → Nat → List Ev
  | _, 0 => []
  | i, j + 1 => Ev.tdSet rid i :: Ev.tdPublish rid (i + 1) :: postEvs rid (i + 1) j

/-- Model of `xmm7360_qp_start`.  On an already-open pair it returns
`-EBUSY` (= -16) with no state change and no events.  Otherwise it
sets the open flag, creates TD rings `2n` (send) and `2n+1` (receive)
with capacity 8, rings the command doorbell, posts receive slots until
the receive ring is full, and rings the TD doorbell.  `none` models a
fired `BUG_ON` inside ring creation or the loop. -/
def qp_start (x : Xmm) (n : Nat) (tds_phys0 tds_phys1 : Nat)
    (pp0 pp1 : Nat → Nat) : Option (Int × Xmm × List Ev) :=
  if x.qp_open n then some (-16, x, [])
  else
    let x := { x with qp_open := Function.update x.qp_open n true }
    match td_ring_create x (2 * n) 8 tds_phys0 pp0 with
    | none => none
    | some (x, e1) =>
      match td_ring_create x (2 * n + 1) 8 tds_phys1 pp1 with
      | none => none
      | some (x, e2) =>
        let e3 := dingEvs x.asleep DOORBELL_CMD
        match post_until_full (2 * n + 1) 8 x with
        | none => none
        | some (x, e4) =>
          some (0, x, e1 ++ e2 ++ e3 ++ e4 ++ dingEvs x.asleep DOORBELL_TD)

/-- Model of `xmm7360_qp_stop`.  On a pair that is not open it returns
`-ENODEV` (= -19) with no state change and no events; otherwise it
clears the open flag and destroys both rings. -/
def qp_stop (x : Xmm) (n : Nat) : Int × Xmm × List Ev :=
  if x.qp_open n then
    let x := { x with qp_open := Function.update x.qp_open n false }
    let r1 := td_ring_destroy x (2 * n)
    let r2 := td_ring_destroy r1.1 (2 * n + 1)
    (0, r2.1, r1.2 ++ r2.2)
  else (-19, x, [])

/-- Model of `xmm7360_qp_read_user`.  The returned `Nat` is the C
`size_t` return value (i.e. the value modulo `2^64`); the `List Nat`
is the bytes copied to the user buffer.  `cancelled = true` models
`wait_event_interruptible` returning `-ERESTARTSYS` (= -512): the
negative `int` is converted to `size_t`, and nothing else happens.
Otherwise the wait has observed `s_rptr ≠ last_handled`; the delivered
length is clamped to the caller's buffer size, that many bytes are
copied out of the page at `last_handled`, a fresh receive slot is
posted via `td_ring_read` (which republishes the TD at the current
write slot), the TD doorbell is rung and `last_handled` advances by
one masked with `size - 1`.  `none` models the `BUG_ON` inside
`td_ring_read`. -/
def qp_read_user (x : Xmm) (n : Nat) (bufsize : Nat) (cancelled : Bool) :
    Option (Nat × List Nat × Xmm × List Ev) :=
  if cancelled then some ((2^64 - 512) % 2^64, [], x, [])
  else
    let ring := x.td_ring (2 * n + 1)
    let idx := ring.last_handled
    let nread := min (ring.tds idx).length bufsize
    let out := (List.range nread).map (ring.pages idx)
    match td_ring_read x (2 * n + 1) with
    | none => none
    | some (x1, evs) =>
      let e2 := dingEvs x1.asleep DOORBELL_TD
      let ring1 := x1.td_ring (2 * n + 1)
      let ring2 : TdRing :=
        { ring1 with last_handled := (idx + 1) &&& (ring1.size - 1) }
      some (nread, out,
            { x1 with td_ring := Function.update x1.td_ring (2 * n + 1) ring2 },
            evs ++ e2)

/-- Interpretation of a `size_t` bit pattern as the C `ssize_t` it
converts to (two's complement at width 64). -/
def toSigned64 (n : Nat) : Int :=
  if n % 2^64 < 2^63 then (n % 2^64 : Int) else (n % 2^64 : Int) - 2^64

/-- Model of the file operation `xmm7360_read`.  It stores
`qp_read_user`'s `size_t` result in a `size_t` local, so the guard
`if (ret < 0)` compares an unsigned value with 0 and is never taken;
the offset is then advanced by the raw `size_t` value (modulo `2^64`)
and the value is returned, converting back to the signed `ssize_t`.
The result is `(returned ssize_t, new offset, bytes copied, state,
events)`. -/
def xmm7360_read_fop (x : Xmm) (n : Nat) (bufsize : Nat) (cancelled : Bool)
    (offset : Nat) : Option (Int × Nat × List Nat × Xmm × List Ev) :=
  match qp_read_user x n bufsize cancelled with
  | none => none
  | some (ret, out, x', evs) =>
    if ret < 0 then some (toSigned64 ret, offset, out, x', evs)
    else some (toSigned64 ret, (offset + ret) % 2^64, out, x', evs)

/-! Device handshake (xmm7360_cmd_ring_init) and probe bring-up. -/

/-- Register writes performed by the enable-stage-2 part of
`xmm7360_cmd_ring_init`. -/
inductive RegWrite where
  | blank (idx val : Nat)
  | mode (val : Nat)
  deriving DecidableEq, Repr

/-- Model of the first handshake poll,
`timeout = 100; while (bar2[BAR2_MODE] == 0 && --timeout) msleep(10);`.
`reads i` is the i-th value read from the mode register.  Returns the
final `timeout` value and the number of reads performed.  The loop
decrements before testing, so it performs at most 99 sleeps; the fuel
argument only serves termination and is unreachable from
`timeout = 100` with fuel ≥ 100. -/
def mode_wait1 (reads : Nat → Nat) : Nat → Int → Nat → Int × Nat
  | _, t, 0 => (t, 0)
  | i, t, fuel + 1 =>
    if reads i ≠ 0 then (t, i + 1)
    else
      let t' := t - 1
      if t' ≠ 0 then mode_wait1 reads (i + 1) t' fuel
      else (t', i + 1)

/-- Model of the second handshake poll exactly as written in the
source: `timeout = 100; while (bar2[BAR2_MODE] != 2 && !--timeout)
msleep(10);`.  Note the `!--timeout`: when the register does not read
2, the decremented timeout (99) is nonzero, so `!--timeout` is false
and the loop exits immediately.  Returns the final `timeout` and the
number of reads. -/
def mode_wait2 (reads : Nat → Nat) : Nat → Int → Nat → Int × Nat
  | _, t, 0 => (t, 0)
  | i, t, fuel + 1 =>
    if reads i = 2 then (t, i + 1)
    else
      let t' := t - 1
      if t' = 0 then mode_wait2 reads (i + 1) t' fuel
      else (t', i + 1)

/-- Model of `xmm7360_cmd_ring_init` from the first acknowledgment on:
clear the four BLANK registers, write enable mode 2, run the second
poll loop, and return `-ETIMEDOUT` (= -110) if its final timeout
counter is zero, else 0.  The result is (register writes, return
code, number of mode-register reads performed by the re-poll). -/
def cmd_ring_init_enable2 (reads : Nat → Nat) : List RegWrite × Int × Nat :=
  let wr := [RegWrite.blank 0 0, RegWrite.blank 1 0, RegWrite.blank 2 0,
             RegWrite.blank 3 0, RegWrite.mode 2]
  let r := mode_wait2 reads 0 100 150
  (wr, if r.1 = 0 then -110 else 0, r.2)

/-- Probe-time resources, one flag per acquisition the driver makes
(`kzalloc`ed device struct, enabled PCI device, the two regions, the
irq vectors, the four requested irqs, the DMA'd control page, the
eight character devices). -/
structure Resources where
  xmm_mem : Bool
  enabled : Bool
  region0 : Bool
  region2 : Bool
  irq_vectors : Bool
  irqs : Nat → Bool
  cp : Bool
  cdevs : Nat → Bool

/-- State with no resources held. -/
def resources_none : Resources :=
  { xmm_mem := false, enabled := false, region0 := false, region2 := false,
    irq_vectors := false, irqs := fun _ => false, cp := false,
    cdevs := fun _ => false }

/-- Model of `xmm7360_cmd_ring_free`: drops the control page (and
writes mode 0) if present. -/
def cmd_ring_free (r : Resources) : Resources := { r with cp := false }

/-- Model of `xmm7360_remove`, the teardown used both at detach and on
every probe failure path: unregister the char devices, free the
control page, free the irqs and irq vectors, release both regions,
disable the device and free the device struct. -/
def xmm_remove (r : Resources) : Resources :=
  let r := { r with cdevs := fun _ => false }
  let r := cmd_ring_free r
  let r := { r with irqs := fun _ => false }
  let r := { r with irq_vectors := false }
  let r := { r with region0 := false, region2 := false }
  let r := { r with enabled := false }
  { r with xmm_mem := false }

/-- Outcome of the ready-status poll in `xmm7360_probe`. -/
inductive StatusPoll where
  | ready (nreads : Nat)
  | crash (nreads : Nat)
  | exhausted (lastStatus : Nat)
  deriving DecidableEq, Repr

/-- Model of the probe bring-up poll: `for (i=0; i<100; i++) { status
= bar2[0]; if (status == 0x600df00d) break; if (status == 0xbadc0ded)
goto fail; mdelay(200); }`.  `i` is the current index, `fuel` the
remaining iterations (100 - i at the top). -/
def status_loop (reads : Nat → Nat) : Nat → Nat → StatusPoll
  | i, 0 => StatusPoll.exhausted (reads (i - 1))
  | i, fuel + 1 =>
    let s := reads i
    if s = 0x600df00d then StatusPoll.ready (i + 1)
    else if s = 0xbadc0ded then StatusPoll.crash (i + 1)
    else status_loop reads (i + 1) fuel

/-- Environment of one probe run: the result of each external
acquisition step and the register values the device supplies. -/
structure ProbeEnv where
  enable_ret : Int
  region0_ret : Int
  region2_ret : Int
  vectors_ret : Int
  irq_ret : Nat → Int
  statusReads : Nat → Nat
  mode1Reads : Nat → Nat
  mode2Reads : Nat → Nat
  wait_ret : Int
  cdev_ret : Nat → Int

/-- Model of the `request_irq` loop in `xmm7360_probe` (four irqs; on
the first failure the probe takes the fail path). -/
def irq_loop (env : ProbeEnv) (r : Resources) : Nat → Nat → (Int × Resources) ⊕ Resources
  | _, 0 => Sum.inr r
  | i, rem + 1 =>
    if env.irq_ret i ≠ 0 then Sum.inl (env.irq_ret i, r)
    else irq_loop env ({ r with irqs := Function.update r.irqs i true }) (i + 1) rem

/-- Model of the `xmm7360_create_cdev` loop in `xmm7360_probe` (eight
queue pairs; on the first failure the probe takes the fail path). -/
def cdev_loop (env : ProbeEnv) (r : Resources) : Nat → Nat → (Int × Resources) ⊕ Resources
  | _, 0 => Sum.inr r
  | i, rem + 1 =>
    if env.cdev_ret i ≠ 0 then Sum.inl (env.cdev_ret i, r)
    else cdev_loop env ({ r with cdevs := Function.update r.cdevs i true }) (i + 1) rem

/-- Model of `xmm7360_cmd_ring_init` at the resource level: the
control page is DMA-allocated up front, the first poll can return
`-ETIMEDOUT`, the second poll is the (buggy) re-poll, the two initial
commands always fit in the fresh (zeroed) command ring, and finally
`xmm7360_cmd_ring_wait`'s result is returned. -/
def cmd_ring_init_model (env : ProbeEnv) (r : Resources) : Int × Resources :=
  let r := { r with cp := true }
  let p1 := mode_wait1 env.mode1Reads 0 100 150
  if p1.1 = 0 then (-110, r)
  else
    let p2 := mode_wait2 env.mode2Reads 0 100 150
    if p2.1 = 0 then (-110, r)
    else if env.wait_ret ≠ 0 then (env.wait_ret, r)
    else (0, r)

/-- Resources held once the PCI device is enabled, both regions
requested, and the irq vectors allocated — the state in which the
probe enters its `request_irq` loop. -/
def res_after_vectors : Resources :=
  { xmm_mem := true, enabled := true, region0 := true, region2 := true,
    irq_vectors := true, irqs := fun _ => false, cp := false,
    cdevs := fun _ => false }

/-- Continuation of `xmm7360_probe` after a successful ready-status
poll: bring up the command ring (possibly failing), then create the
eight character devices (possibly failing); any failure runs
`xmm7360_remove`. -/
def probe_rest (env : ProbeEnv) (r : Resources) : Int × Resources :=
  let ci := cmd_ring_init_model env r
  if ci.1 ≠ 0 then (ci.1, xmm_remove ci.2)
  else
    match cdev_loop env ci.2 0 8 with
    | Sum.inl (ret, r2) => (ret, xmm_remove r2)
    | Sum.inr r2 => (0, r2)

/-- Model of `xmm7360_probe`: acquire resources in order, poll for the
ready status (aborting at once on the crash-dump sentinel, and
rejecting any final status other than ready after the loop), bring up
the command ring, create the char devices; every failure takes the
`fail:` path, which runs `xmm7360_remove` on the resources held at
that point. -/
def xmm_probe (env : ProbeEnv) : Int × Resources :=
  if env.enable_ret ≠ 0 then
    (env.enable_ret, xmm_remove { resources_none with xmm_mem := true })
  else if env.region0_ret ≠ 0 then
    (env.region0_ret,
     xmm_remove { resources_none with xmm_mem := true, enabled := true })
  else if env.region2_ret ≠ 0 then
    (env.region2_ret,
     xmm_remove { resources_none with
       xmm_mem := true, enabled := true, region0 := true })
  else if env.vectors_ret < 0 then
    (env.vectors_ret,
     xmm_remove { resources_none with
       xmm_mem := true, enabled := true, region0 := true, region2 := true })
  else
    match irq_loop env res_after_vectors 0 4 with
    | Sum.inl (ret, r) => (ret, xmm_remove r)
    | Sum.inr r =>
      match status_loop env.statusReads 0 100 with
      | StatusPoll.crash _ => (-22, xmm_remove r)
      | StatusPoll.ready _ => probe_rest env r
      | StatusPoll.exhausted last =>
        if last = 0x600df00d then probe_rest env r else (-22, xmm_remove r)

/-! Concrete states used by witnesses and counterexamples. -/

/-- Zeroed command ring entry. -/
def cmdE0 : CmdRingEntry :=
  { ptr := 0, len := 0, parm := 0, cmd := 0, extra := 0, unk := 0, flags := 0 }

/-- Never-created TD ring (size 0). -/
def tdR0 : TdRing :=
  { size := 0, last_handled := 0, page_size := 0,
    tds := fun _ => { addr := 0, length := 0, flags := 0, unk := 0 },
    tds_phys := 0, pages := fun _ _ => 0 }

/-- Freshly created TD ring of capacity 8. -/
def tdR8 : TdRing :=
  { size := 8, last_handled := 0, page_size := 0x1000,
    tds := fun _ => { addr := 0, length := 0, flags := 0, unk := 0 },
    tds_phys := 0, pages := fun _ _ => 0 }

/-- Device state with empty command ring and no TD rings. -/
def xmm0 : Xmm :=
  { c_wptr := 0, c_rptr := 0, c_ring := fun _ => cmdE0,
    s_wptr := fun _ => 0, s_rptr := fun _ => 0, td_ring := fun _ => tdR0,
    qp_open := fun _ => false, asleep := false }

/-- Device state whose command ring is full (`(c_wptr+1) % 128 = c_rptr`). -/
def xmmCmdFull : Xmm := { xmm0 with c_wptr := 0, c_rptr := 1 }

/-- Device state with capacity-8 TD rings, all pointers zero. -/
def xmmR8 : Xmm := { xmm0 with td_ring := fun _ => tdR8 }

/-- Device state with every queue pair open. -/
def xmmOpen : Xmm := { xmm0 with qp_open := fun _ => true }

/-- Receive ring in a steady state reached after `qp_start` and one
device delivery: capacity 8, `last_handled = 0`, a delivered TD of
length 5 (flags contain the COMPLETE bit) at slot 0. -/
def tdRC5 : TdRing :=
  { size := 8, last_handled := 0, page_size := 0x1000,
    tds := fun i => if i = 0
      then { addr := 0, length := 5, flags := 0x200, unk := 0 }
      else { addr := 0, length := 0, flags := 0, unk := 0 },
    tds_phys := 0, pages := fun _ _ => 0 }

/-- Device state for the read-path counterexample: the receive ring's
write pointer is 7 (seven slots posted), the device has consumed slot
0 (read pointer 1), and slot 0 holds a delivered 5-byte TD. -/
def xmmC5 : Xmm :=
  { xmm0 with td_ring := fun _ => tdRC5,
              s_wptr := fun _ => 7, s_rptr := fun _ => 1 }

/-- TD ring as `xmm7360_td_ring_create` builds it for capacity 8:
page size 0x1000, zeroed TDs with each slot's buffer bus address
bound, both pointers reset separately in the control page. -/
def ring8 (tp : Nat) (pp : Nat → Nat) : TdRing :=
  { size := 8, last_handled := 0, page_size := 0x1000,
    tds := fun i => if i < 8
      then { addr := pp i, length := 0, flags := 0, unk := 0 }
      else { addr := 0, length := 0, flags := 0, unk := 0 },
    tds_phys := tp, pages := fun _ _ => 0 }

/-- Command-ring entry of a capacity-8 `RING_OPEN` submission (opcode
1, parameter = ring id, length = capacity, extra word 0x60), with the
C field-width truncations. -/
def openEntry (rid tp : Nat) : CmdRingEntry :=
  { ptr := tp % 2^64, len := 8 % 2^16, parm := rid % 2^8, cmd := 1 % 2^8,
    extra := 0x60 % 2^32, unk := 0, flags := CMD_FLAG_READY }

/-- All the probe acquisition steps before the status poll succeed. -/
def ProbeEnv.stepsOk (env : ProbeEnv) : Prop :=
  env.enable_ret = 0 ∧ env.region0_ret = 0 ∧ env.region2_ret = 0 ∧
  0 ≤ env.vectors_ret ∧ ∀ t, t < 4 → env.irq_ret t = 0

/-- Probe environment where every host-side step succeeds but the
device never leaves status 0 (never ready, never crashed). -/
def envTimeout : ProbeEnv :=
  { enable_ret := 0, region0_ret := 0, region2_ret := 0, vectors_ret := 0,
    irq_ret := fun _ => 0, statusReads := fun _ => 0, mode1Reads := fun _ => 1,
    mode2Reads := fun _ => 2, wait_ret := 0, cdev_ret := fun _ => 0 }

/-- Probe environment where the device reports the crash-dump sentinel
on the fourth status poll. -/
def envCrash : ProbeEnv :=
  { envTimeout with statusReads := fun i => if i = 3 then 0xbadc0ded else 0 }

/-- Probe environment where enabling the PCI device fails. -/
def envFailEnable : ProbeEnv := { envTimeout with enable_ret := -5 }

/-! Arithmetic helpers about the driver's mask-based pointer advance. -/

/-- Taking a `u32` value through a `u8` register does not change it
modulo any power of two up to `2^8`. -/
theorem mod256_mod_pow (w k : Nat) (hk : k ≤ 8) : w % 256 % 2^k = w % 2^k := by
  have h : (2:Nat)^k ∣ 256 := by
    have := pow_dvd_pow 2 hk
    norm_num at this ⊢
    exact_mod_cast this
  exact Nat.mod_mod_of_dvd w h

/-- Advancing a `u8`-truncated pointer by one and masking with
`2^k - 1` computes addition of one modulo `2^k`, for `k ≤ 8`. -/
theorem mask_add_one (w k : Nat) (hk : k ≤ 8) :
    (w % 256 + 1) &&& (2^k - 1) = (w + 1) % 2^k := by
  rw [Nat.and_pow_two_sub_one_eq_mod, Nat.add_mod, mod256_mod_pow w k hk,
    ← Nat.add_mod]

/-- Claim C1: for every command-ring state, `submit` computes
`next = (writePtr + 1) mod 128`; if `next` equals the read pointer it
fails immediately with RingFull (`-EAGAIN`), leaving every ring entry
and the write pointer unchanged; otherwise it writes all fields of the
entry at the old write pointer (buffer address, opcode, parameter,
length, extra, and the READY flag) and only after all field writes —
last in the store trace `cmdSubmitEvs` — publishes the new write
pointer, so it never overwrites an entry not yet consumed by the
device. -/
theorem cmd_ring_submit_correct (x : Xmm) (cmd parm len ptr extra : Nat) :
    ((x.c_wptr % 256 + 1) % CMD_RING_SIZE = x.c_rptr →
      cmd_ring_submit x cmd parm len ptr extra = (-11, x, [])) ∧
    ((x.c_wptr % 256 + 1) % CMD_RING_SIZE ≠ x.c_rptr →
      cmd_ring_submit x cmd parm len ptr extra =
        (0,
         { x with
             c_ring := Function.update x.c_ring (x.c_wptr % 256)
               ({ ptr := ptr % 2^64, len := len % 2^16, parm := parm % 2^8,
                  cmd := cmd % 2^8, extra := extra % 2^32, unk := 0,
                  flags := CMD_FLAG_READY }),
             c_wptr := (x.c_wptr % 256 + 1) % CMD_RING_SIZE },
         cmdSubmitEvs (x.c_wptr % 256) ((x.c_wptr % 256 + 1) % CMD_RING_SIZE))) := by
  constructor
  · intro h
    simp only [cmd_ring_submit, if_pos h]
  · intro h
    simp only [cmd_ring_submit, if_neg h]

/-- Witness for C1: on a concrete full ring `submit` returns RingFull
and changes nothing; on a concrete non-full ring it succeeds with the
entry written and the pointer published last. -/
theorem cmd_ring_submit_correct_witness :
    cmd_ring_submit xmmCmdFull 4 0 1 0 0 = (-11, xmmCmdFull, []) ∧
    cmd_ring_submit xmm0 4 0 1 0 0 =
      (0,
       { xmm0 with
           c_ring := Function.update xmm0.c_ring 0
             ({ ptr := 0, len := 1, parm := 0, cmd := 4, extra := 0, unk := 0,
                flags := CMD_FLAG_READY }),
           c_wptr := 1 },
       cmdSubmitEvs 0 1) :=
  ⟨(cmd_ring_submit_correct xmmCmdFull 4 0 1 0 0).1 (by decide),
   (cmd_ring_submit_correct xmm0 4 0 1 0 0).2 (by decide)⟩

/-- Claim C2: for a TD ring of power-of-two capacity `C = 2^k`,
`isFull` is true iff `(writePtr + 1) mod C` equals the read pointer —
for every pair of write/read pointer values; and for in-range pointers
(as every ring operation maintains), `isFull` is true iff exactly
`C - 1` entries are outstanding, and the number of outstanding entries
can never exceed `C - 1`. -/
theorem td_ring_full_correct (x : Xmm) (rid k : Nat) (hk : k ≤ 7)
    (hsz : (x.td_ring rid).size = 2^k) :
    (td_ring_full x rid = true ↔ (x.s_wptr rid + 1) % 2^k = x.s_rptr rid) ∧
    (x.s_wptr rid < 2^k → x.s_rptr rid < 2^k →
      (td_ring_full x rid = true ↔ outstanding x rid = 2^k - 1) ∧
      outstanding x rid ≤ 2^k - 1) := by
  have hmask := mask_add_one (x.s_wptr rid) k (by omega)
  constructor
  · simp only [td_ring_full, hsz, hmask, beq_iff_eq]
  · intro hw hr
    simp only [td_ring_full, outstanding, hsz, hmask, beq_iff_eq]
    interval_cases k <;> norm_num at hw hr ⊢ <;> omega

/-- Witness for C2: a concrete capacity-8 ring with write pointer 7
and read pointer 0 is full with 7 entries outstanding. -/
theorem td_ring_full_correct_witness :
    (td_ring_full ({ xmmR8 with s_wptr := fun _ => 7 }) 1 = true ↔
      (7 + 1) % 2^3 = 0) ∧
    ((td_ring_full ({ xmmR8 with s_wptr := fun _ => 7 }) 1 = true ↔
      outstanding ({ xmmR8 with s_wptr := fun _ => 7 }) 1 = 2^3 - 1) ∧
    outstanding ({ xmmR8 with s_wptr := fun _ => 7 }) 1 ≤ 2^3 - 1) :=
  ⟨(td_ring_full_correct ({ xmmR8 with s_wptr := fun _ => 7 }) 1 3 (by norm_num)
      rfl).1,
   (td_ring_full_correct ({ xmmR8 with s_wptr := fun _ => 7 }) 1 3 (by norm_num)
      rfl).2 (by decide) (by decide)⟩

/-- Claim C3: under `writeSend`'s preconditions — existing ring
(power-of-two capacity `2^k`), data no larger than the page size, an
even (send-direction) ring id, and a ring that is not full — no
fatal-assertion branch fires (the result is `some`, in particular the
post-advance `BUG_ON(wptr == rptr)` is unreachable), the data is
copied into the buffer page at the current write slot, that TD's
length is set and its flags cleared, and the write pointer is
published advanced by one modulo the capacity.  The same holds for
the user-copy variant. -/
theorem td_ring_write_correct (x : Xmm) (rid k : Nat) (buf : List Nat)
    (hk : k ≤ 7) (hsz : (x.td_ring rid).size = 2^k)
    (hlen : buf.length ≤ (x.td_ring rid).page_size)
    (heven : rid % 2 = 0)
    (hfull : td_ring_full x rid = false)
    (hw : x.s_wptr rid < 2^k) :
    td_ring_write x rid buf =
      some ({ x with
          td_ring := Function.update x.td_ring rid
            ({ x.td_ring rid with
               pages := Function.update (x.td_ring rid).pages (x.s_wptr rid)
                 (memcpyBytes ((x.td_ring rid).pages (x.s_wptr rid)) buf),
               tds := Function.update (x.td_ring rid).tds (x.s_wptr rid)
                 ({ (x.td_ring rid).tds (x.s_wptr rid) with
                    length := buf.length % 2^16, flags := 0, unk := 0 }) }),
          s_wptr := Function.update x.s_wptr rid ((x.s_wptr rid + 1) % 2^k) },
        [Ev.tdSet rid (x.s_wptr rid),
         Ev.tdPublish rid ((x.s_wptr rid + 1) % 2^k)]) ∧
    td_ring_write_user x rid buf =
      some ({ x with
          td_ring := Function.update x.td_ring rid
            ({ x.td_ring rid with
               pages := Function.update (x.td_ring rid).pages (x.s_wptr rid)
                 (memcpyBytes ((x.td_ring rid).pages (x.s_wptr rid)) buf),
               tds := Function.update (x.td_ring rid).tds (x.s_wptr rid)
                 ({ (x.td_ring rid).tds (x.s_wptr rid) with
                    length := buf.length % 2^16, flags := 0, unk := 0 }) }),
          s_wptr := Function.update x.s_wptr rid ((x.s_wptr rid + 1) % 2^k) },
        [Ev.tdSet rid (x.s_wptr rid),
         Ev.tdPublish rid ((x.s_wptr rid + 1) % 2^k)]) := by
  have h256 : x.s_wptr rid % 256 = x.s_wptr rid :=
    Nat.mod_eq_of_lt (lt_of_lt_of_le hw
      (le_trans (Nat.pow_le_pow_right (by norm_num) hk) (by norm_num)))
  have hmask : (x.s_wptr rid + 1) &&& (2^k - 1) = (x.s_wptr rid + 1) % 2^k := by
    have h := mask_add_one (x.s_wptr rid) k (by omega)
    rwa [h256] at h
  have hne : ((x.s_wptr rid % 256 + 1) &&& ((x.td_ring rid).size - 1)) ≠
      x.s_rptr rid := by
    simpa [td_ring_full, beq_eq_false_iff_ne] using hfull
  rw [h256, hsz, hmask] at hne
  have c1 : ¬ ((x.td_ring rid).size = 0) := by simp [hsz]
  have c2 : ¬ ((x.td_ring rid).page_size < buf.length) := not_lt.mpr hlen
  have c3 : ¬ (rid % 2 = 1) := by omega
  have hpk : ¬ ((2:Nat)^k = 0) := by positivity
  constructor <;>
    simp only [td_ring_write, td_ring_write_user, c1, c2, c3, hsz, h256, hmask,
      if_neg hne, if_neg c1, if_neg c2, if_neg c3, if_neg hpk, if_false,
      ite_false]

/-- Witness for C3: on a concrete capacity-8 send ring that is not
full, both write variants succeed (no assertion branch fires). -/
theorem td_ring_write_correct_witness :
    td_ring_full xmmR8 0 = false ∧
    (td_ring_write xmmR8 0 [1, 2, 3]).isSome = true ∧
    (td_ring_write_user xmmR8 0 [1, 2, 3]).isSome = true := by
  refine ⟨by decide, ?_, ?_⟩
  · rw [(td_ring_write_correct xmmR8 0 3 [1, 2, 3] (by norm_num) rfl (by decide)
      rfl (by decide) (by decide)).1]
    rfl
  · rw [(td_ring_write_correct xmmR8 0 3 [1, 2, 3] (by norm_num) rfl (by decide)
      rfl (by decide) (by decide)).2]
    rfl

/-- Claim C7: opening an already-open queue pair fails with `-EBUSY`
and changes nothing (no ring creation, no posts, no doorbells — the
event list is empty and the state is returned unchanged); closing a
pair that is not open fails with `-ENODEV` equally without side
effects. -/
theorem qp_lifecycle_errors (x : Xmm) (n m : Nat) (tp0 tp1 : Nat)
    (pp0 pp1 : Nat → Nat) :
    (x.qp_open n = true → qp_start x n tp0 tp1 pp0 pp1 = some (-16, x, [])) ∧
    (x.qp_open m = false → qp_stop x m = (-19, x, [])) := by
  constructor
  · intro h
    simp [qp_start, h]
  · intro h
    simp [qp_stop, h]

/-- Witness for C7 on concrete states: an open pair rejects `open`, a
closed pair rejects `close`, both unchanged. -/
theorem qp_lifecycle_errors_witness :
    qp_start xmmOpen 0 0 0 (fun _ => 0) (fun _ => 0) = some (-16, xmmOpen, []) ∧
    qp_stop xmm0 0 = (-19, xmm0, []) :=
  ⟨(qp_lifecycle_errors xmmOpen 0 0 0 0 (fun _ => 0) (fun _ => 0)).1 rfl,
   (qp_lifecycle_errors xmm0 0 0 0 0 (fun _ => 0) (fun _ => 0)).2 rfl⟩

/-- Claim C8: when the blocking wait of the stream read is interrupted
before data arrives, the file-level read returns the error (-512 as an
`ssize_t`, a negative value, not a byte count) to the caller, copies
no bytes, and leaves the whole ring state — receive ring, pointers and
`last_handled` included — unchanged.  (The `if (ret < 0)` guard in
`xmm7360_read` compares an unsigned `size_t` and is dead, so the file
offset is advanced by the wrapped error value, but the returned value
converts back to the negative error and no ring state is touched.) -/
theorem read_cancelled_correct (x : Xmm) (n bufsize offset : Nat) :
    xmm7360_read_fop x n bufsize true offset =
      some (-512, (offset + (2^64 - 512)) % 2^64, [], x, []) ∧
    (-512 : Int) < 0 := by
  refine ⟨?_, by norm_num⟩
  simp only [xmm7360_read_fop, qp_read_user, if_pos, if_true, ite_true, toSigned64]
  norm_num

/-- Claim C5 (amended): when `read` wakes with data available
(receive-ring read pointer differs from `lastHandledIndex`) on a
receive ring of capacity `2^k` that is not full, it copies
`min(delivered length, bufferSize)` bytes from the slot at
`lastHandledIndex` — truncating, with the excess discarded — then
posts a fresh full-capacity receive buffer at the slot at the ring's
CURRENT WRITE POINTER (not the slot at `lastHandledIndex`; every TD
slot other than the one at the write pointer is left untouched), rings
the data doorbell, advances `lastHandledIndex` by one modulo the
capacity, and returns the number of bytes copied. -/
theorem qp_read_user_correct (x : Xmm) (n k bufsize : Nat) (hk : k ≤ 7)
    (hsz : (x.td_ring (2*n+1)).size = 2^k)
    (hw : x.s_wptr (2*n+1) < 2^k)
    (hfull : td_ring_full x (2*n+1) = false)
    (hwait : x.s_rptr (2*n+1) ≠ (x.td_ring (2*n+1)).last_handled) :
    qp_read_user x n bufsize false =
      some (min ((x.td_ring (2*n+1)).tds (x.td_ring (2*n+1)).last_handled).length bufsize,
        (List.range (min ((x.td_ring (2*n+1)).tds (x.td_ring (2*n+1)).last_handled).length bufsize)).map
          ((x.td_ring (2*n+1)).pages (x.td_ring (2*n+1)).last_handled),
        { x with
            td_ring := Function.update x.td_ring (2*n+1)
              ({ x.td_ring (2*n+1) with
                 tds := Function.update (x.td_ring (2*n+1)).tds (x.s_wptr (2*n+1))
                   ({ (x.td_ring (2*n+1)).tds (x.s_wptr (2*n+1)) with
                      length := (x.td_ring (2*n+1)).page_size, flags := 0, unk := 0 }),
                 last_handled := ((x.td_ring (2*n+1)).last_handled + 1) % 2^k }),
            s_wptr := Function.update x.s_wptr (2*n+1) ((x.s_wptr (2*n+1) + 1) % 2^k) },
        [Ev.tdSet (2*n+1) (x.s_wptr (2*n+1)),
         Ev.tdPublish (2*n+1) ((x.s_wptr (2*n+1) + 1) % 2^k)] ++
          dingEvs x.asleep 0) := by
  have h256 : x.s_wptr (2*n+1) % 256 = x.s_wptr (2*n+1) :=
    Nat.mod_eq_of_lt (lt_of_lt_of_le hw
      (le_trans (Nat.pow_le_pow_right (by norm_num) hk) (by norm_num)))
  have hmask : (x.s_wptr (2*n+1) + 1) &&& (2^k - 1) = (x.s_wptr (2*n+1) + 1) % 2^k := by
    have h := mask_add_one (x.s_wptr (2*n+1)) k (by omega)
    rwa [h256] at h
  have hmaskL : ((x.td_ring (2*n+1)).last_handled + 1) &&& (2^k - 1) =
      ((x.td_ring (2*n+1)).last_handled + 1) % 2^k :=
    Nat.and_pow_two_sub_one_eq_mod _ k
  have hne : ((x.s_wptr (2*n+1) % 256 + 1) &&& ((x.td_ring (2*n+1)).size - 1)) ≠
      x.s_rptr (2*n+1) := by
    simpa [td_ring_full, beq_eq_false_iff_ne] using hfull
  rw [h256, hsz, hmask] at hne
  have c1 : ¬ ((x.td_ring (2*n+1)).size = 0) := by simp [hsz]
  have c3 : ¬ ((2*n+1) % 2 = 0) := by omega
  have hpk : ¬ ((2:Nat)^k = 0) := by positivity
  simp only [qp_read_user, td_ring_read, c1, c3, hsz, h256, hmask, hmaskL,
    if_neg hne, if_neg c1, if_neg c3, if_neg hpk, if_false, ite_false,
    Bool.false_eq_true, Function.update_same, Function.update_idem, DOORBELL_TD]

/-- Witness for C5 on the concrete steady state `xmmC5`: the wake
condition, not-full condition and pointer bound hold, and the read
returns 5 copied bytes. -/
theorem qp_read_user_correct_witness :
    td_ring_full xmmC5 1 = false ∧
    xmmC5.s_rptr 1 ≠ (xmmC5.td_ring 1).last_handled ∧
    (Option.map (fun r => r.1) (qp_read_user xmmC5 0 100 false)) = some 5 := by
  refine ⟨by decide, by decide, ?_⟩
  rw [qp_read_user_correct xmmC5 0 3 100 (by norm_num) rfl (by decide) (by decide)
    (by decide)]
  rfl

/-- Counterexample to C5 as stated: in the concrete steady state
`xmmC5` (receive ring of capacity 8, `lastHandledIndex` 0 holding a
delivered 5-byte TD, write pointer 7), after the read the TD at
`lastHandledIndex` still carries length 5 with the COMPLETE flag —
it was NOT re-posted as a fresh full-capacity (0x1000) receive
buffer; the slot that was re-posted is the one at the write pointer,
slot 7. -/
theorem qp_read_user_repost_counterexample :
    (Option.map (fun r => ((r.2.2.1.td_ring 1).tds 0, (r.2.2.1.td_ring 1).tds 7))
        (qp_read_user xmmC5 0 100 false)) =
      some ({ addr := 0, length := 5, flags := 0x200, unk := 0 },
            { addr := 0, length := 0x1000, flags := 0, unk := 0 }) ∧
    ({ addr := 0, length := 5, flags := 0x200, unk := 0 } : TdRingEntry) ≠
      ({ addr := 0, length := 0x1000, flags := 0, unk := 0 } : TdRingEntry) := by
  exact ⟨by decide, by decide⟩

/-- Claim C10: on a TD ring whose capacity is the nonzero power of two
`2^k` (k ≤ 7, as all TD ring sizes are `u8`), every operation that
advances the write pointer (`writeSend`, its user-copy variant, and
the receive-slot post) publishes exactly `(writePtr + 1) mod 2^k` —
the bitwise AND with `capacity - 1` coincides with addition of one
modulo the capacity — so the published pointer is always strictly
below the capacity and indexes a valid TD slot; and the fullness check
computes with the same mask, i.e. is true iff
`(writePtr + 1) mod 2^k = readPtr`. -/
theorem td_ring_advance_invariant (x : Xmm) (rid k : Nat) (buf : List Nat)
    (hk : k ≤ 7) (hsz : (x.td_ring rid).size = 2^k) :
    (∀ y evs, td_ring_write x rid buf = some (y, evs) →
      y.s_wptr rid = (x.s_wptr rid + 1) % 2^k ∧ y.s_wptr rid < 2^k) ∧
    (∀ y evs, td_ring_write_user x rid buf = some (y, evs) →
      y.s_wptr rid = (x.s_wptr rid + 1) % 2^k ∧ y.s_wptr rid < 2^k) ∧
    (rid % 2 = 1 → ∀ y evs, td_ring_read x rid = some (y, evs) →
      y.s_wptr rid = (x.s_wptr rid + 1) % 2^k ∧ y.s_wptr rid < 2^k) ∧
    (td_ring_full x rid = true ↔ (x.s_wptr rid + 1) % 2^k = x.s_rptr rid) := by
  have hadv : ((x.s_wptr rid % 256 + 1) &&& ((x.td_ring rid).size - 1)) =
      (x.s_wptr rid + 1) % 2^k := by
    rw [hsz]; exact mask_add_one _ k (by omega)
  have hlt : (x.s_wptr rid + 1) % 2^k < 2^k := Nat.mod_lt _ (by positivity)
  refine ⟨?_, ?_, ?_, ?_⟩
  · intro y evs h
    simp only [td_ring_write] at h
    split_ifs at h with h1 h2 h3 h4
    simp only [Option.some.injEq, Prod.mk.injEq] at h
    obtain ⟨hy, -⟩ := h
    subst hy
    simp only [Function.update_same, hadv]
    exact ⟨trivial, hlt⟩
  · intro y evs h
    simp only [td_ring_write_user] at h
    split_ifs at h with h1 h2 h3 h4
    simp only [Option.some.injEq, Prod.mk.injEq] at h
    obtain ⟨hy, -⟩ := h
    subst hy
    simp only [Function.update_same, hadv]
    exact ⟨trivial, hlt⟩
  · intro hodd y evs h
    simp only [td_ring_read] at h
    split_ifs at h with h1 h2 h3
    · rw [hsz] at h1
      exact absurd h1 (by positivity)
    · omega
    · simp only [Option.some.injEq, Prod.mk.injEq] at h
      obtain ⟨hy, -⟩ := h
      subst hy
      simp only [Function.update_same, hadv]
      exact ⟨trivial, hlt⟩
  · simp only [td_ring_full, hadv, beq_iff_eq]

/-- Witness for C10 on a concrete capacity-8 ring. -/
theorem td_ring_advance_invariant_witness :
    (xmmR8.td_ring 1).size = 2^3 ∧
    (td_ring_full xmmR8 1 = true ↔ (xmmR8.s_wptr 1 + 1) % 2^3 = xmmR8.s_rptr 1) :=
  ⟨rfl, (td_ring_advance_invariant xmmR8 1 3 [] (by norm_num) rfl).2.2.2⟩

/-- Behavior of the second handshake poll from its initial counter
100: whatever the mode register reads, the loop performs exactly one
read and exits with counter 100 (register read 2) or 99 (anything
else) — it never sleeps, never retries, and never reaches 0. -/
theorem mode_wait2_from100 (reads : Nat → Nat) (fuel : Nat) :
    mode_wait2 reads 0 100 (fuel + 1) =
      if reads 0 = 2 then (100, 1) else (99, 1) := by
  by_cases h : reads 0 = 2 <;> simp [mode_wait2, h]

/-- Masking a value below 8 with 7 is the identity. -/
theorem land7_small (m : Nat) (hm : m < 8) : m &&& 7 = m := by
  have h := Nat.and_pow_two_sub_one_eq_mod m 3
  norm_num at h
  rw [h]
  exact Nat.mod_eq_of_lt hm

/-- Success case of `xmm7360_td_ring_create` at capacity 8: if the
ring does not exist yet and the command ring is not full, the ring
struct is installed, both slave pointers are zeroed, the `RING_OPEN`
entry is queued at the old command write pointer and the command
doorbell rung. -/
theorem td_ring_create8_spec (x : Xmm) (rid tp : Nat) (pp : Nat → Nat)
    (hs : (x.td_ring rid).size = 0)
    (hcw : x.c_wptr < 128)
    (hf : (x.c_wptr + 1) % 128 ≠ x.c_rptr) :
    td_ring_create x rid 8 tp pp =
      some ({ x with
          td_ring := Function.update x.td_ring rid (ring8 tp pp),
          s_rptr := Function.update x.s_rptr rid 0,
          s_wptr := Function.update x.s_wptr rid 0,
          c_ring := Function.update x.c_ring x.c_wptr (openEntry rid tp),
          c_wptr := (x.c_wptr + 1) % 128 },
        cmdSubmitEvs x.c_wptr ((x.c_wptr + 1) % 128) ++ dingEvs x.asleep 1) := by
  have h256 : x.c_wptr % 256 = x.c_wptr := Nat.mod_eq_of_lt (by omega)
  simp only [td_ring_create, cmd_ring_submit, CMD_RING_SIZE, CMD_RING_OPEN,
    DOORBELL_CMD, hs, h256, ring8, openEntry,
    show ¬((0:Nat) ≠ 0) from by omega,
    show ¬((8:Nat) &&& (8 - 1) ≠ 0) from by decide,
    if_neg hf, if_false, ite_false]

/-- One-step unfolding of the qp-start loop at nonzero fuel. -/
theorem post_until_full_succ (rid fuel : Nat) (x : Xmm) :
    post_until_full rid (fuel + 1) x =
      if td_ring_full x rid then some (x, [])
      else
        match td_ring_read x rid with
        | none => none
        | some (x', evs) =>
          match post_until_full rid fuel x' with
          | none => none
          | some (x'', evs') => some (x'', evs ++ evs') := rfl

/-- Run of `qp_start`'s post-until-full loop on a freshly created
receive ring: from write slot `i` (read pointer 0, capacity 8,
`i + j = 7`), `j` further posts happen, after which the write pointer
is 7 and the ring reports full; nothing outside ring `rid`'s TD state
and slave write pointer changes. -/
theorem post_loop_run (rid : Nat) (hodd : rid % 2 = 1) :
    ∀ (j : Nat) (x : Xmm) (i : Nat), i + j = 7 →
      x.s_wptr rid = i → x.s_rptr rid = 0 → (x.td_ring rid).size = 8 →
      ∃ y : Xmm,
        post_until_full rid (j + 1) x = some (y, postEvs rid i j) ∧
        y.s_wptr rid = 7 ∧
        td_ring_full y rid = true ∧
        (y.td_ring rid).size = 8 ∧
        (∀ m, m ≠ rid → y.td_ring m = x.td_ring m) ∧
        y.qp_open = x.qp_open ∧ y.asleep = x.asleep ∧
        y.c_wptr = x.c_wptr ∧ y.c_rptr = x.c_rptr ∧ y.c_ring = x.c_ring ∧
        y.s_rptr = x.s_rptr := by
  intro j
  induction j with
  | zero =>
    intro x i hij hw hr hsz
    have hi : x.s_wptr rid = 7 := by omega
    have hfull : td_ring_full x rid = true := by
      simp only [td_ring_full, hsz, hr, hi]
      rfl
    refine ⟨x, ?_, hi, hfull, hsz, fun m _ => rfl, rfl, rfl, rfl, rfl, rfl, rfl⟩
    simp [post_until_full, hfull, postEvs]
  | succ j ih =>
    intro x i hij hw hr hsz
    have hi256 : i % 256 = i := Nat.mod_eq_of_lt (by omega)
    have hl : (i + 1) &&& 7 = i + 1 := land7_small _ (by omega)
    have hnotfull : td_ring_full x rid = false := by
      simp only [td_ring_full, hsz, hr, hw, hi256, show (8:Nat) - 1 = 7 from rfl,
        hl]
      simp [Nat.succ_ne_zero]
    have hsz0 : ¬ ((x.td_ring rid).size = 0) := by simp [hsz]
    have hodd' : ¬ (rid % 2 = 0) := by omega
    have hne : ¬ (i + 1 = x.s_rptr rid) := by rw [hr]; omega
    have hread : td_ring_read x rid =
        some ({ x with
            td_ring := Function.update x.td_ring rid
              ({ x.td_ring rid with
                 tds := Function.update (x.td_ring rid).tds i
                   ({ (x.td_ring rid).tds i with
                      length := (x.td_ring rid).page_size, flags := 0, unk := 0 }) }),
            s_wptr := Function.update x.s_wptr rid (i + 1) },
          [Ev.tdSet rid i, Ev.tdPublish rid (i + 1)]) := by
      simp only [td_ring_read, hsz0, hodd', hsz, hw, hi256,
        show (8:Nat) - 1 = 7 from rfl, hl, if_neg hne, if_false, ite_false]
      norm_num
    set x' : Xmm :=
      { x with
        td_ring := Function.update x.td_ring rid
          ({ x.td_ring rid with
             tds := Function.update (x.td_ring rid).tds i
               ({ (x.td_ring rid).tds i with
                  length := (x.td_ring rid).page_size, flags := 0, unk := 0 }) }),
        s_wptr := Function.update x.s_wptr rid (i + 1) } with hx'
    obtain ⟨y, hy, hyw, hyfull, hysz, hyout, hyqp, hyas, hycw, hycr, hycring, hysr⟩ :=
      ih x' (i + 1) (by omega) (by simp [hx', Function.update_same])
        (by simp [hx', hr]) (by simp [hx', Function.update_same, hsz])
    refine ⟨y, ?_, hyw, hyfull, ?_, ?_, ?_, ?_, ?_, ?_, ?_, ?_⟩
    · show post_until_full rid (j + 1 + 1) x = _
      rw [post_until_full_succ]
      simp only [hnotfull, Bool.false_eq_true, if_false, ite_false, hread, hy,
        postEvs]
      rfl
    · exact hysz
    · intro m hm
      rw [hyout m hm, hx']
      simp [Function.update_noteq hm]
    · rw [hyqp, hx']
    · rw [hyas, hx']
    · rw [hycw, hx']
    · rw [hycr, hx']
    · rw [hycring, hx']
    · rw [hysr, hx']

/-- Claim C4: opening a closed queue pair `n` (with both of its rings
not yet created, and at least two free command-ring slots) creates the
send ring `2n` and the receive ring `2n+1`, each with fixed capacity
8; the trace shows both `RING_OPEN` submissions (each followed by a
command-doorbell ring inside ring creation), then the command doorbell
rung again after both commands are queued, then exactly 7 receive-slot
posts (`postEvs _ 0 7`) after which the receive ring reports full,
then the data doorbell; the pair is marked open, and the two queued
`RING_OPEN` entries sit at consecutive command-ring slots. -/
theorem qp_start_correct (x : Xmm) (n tp0 tp1 : Nat) (pp0 pp1 : Nat → Nat)
    (hn : n < 8)
    (hopen : x.qp_open n = false)
    (hs0 : (x.td_ring (2*n)).size = 0)
    (hs1 : (x.td_ring (2*n+1)).size = 0)
    (hcw : x.c_wptr < 128)
    (hf1 : (x.c_wptr + 1) % 128 ≠ x.c_rptr)
    (hf2 : (x.c_wptr + 2) % 128 ≠ x.c_rptr) :
    ∃ y : Xmm,
      qp_start x n tp0 tp1 pp0 pp1 =
        some (0, y,
          (cmdSubmitEvs x.c_wptr ((x.c_wptr + 1) % 128) ++ dingEvs x.asleep 1) ++
          (cmdSubmitEvs ((x.c_wptr + 1) % 128) ((x.c_wptr + 2) % 128) ++
            dingEvs x.asleep 1) ++
          dingEvs x.asleep 1 ++ postEvs (2*n+1) 0 7 ++ dingEvs x.asleep 0) ∧
      (y.td_ring (2*n)).size = 8 ∧ (y.td_ring (2*n+1)).size = 8 ∧
      y.qp_open n = true ∧
      td_ring_full y (2*n+1) = true ∧
      y.c_ring x.c_wptr =
        { ptr := tp0 % 2^64, len := 8, parm := 2*n, cmd := 1, extra := 0x60,
          unk := 0, flags := CMD_FLAG_READY } ∧
      y.c_ring ((x.c_wptr + 1) % 128) =
        { ptr := tp1 % 2^64, len := 8, parm := 2*n + 1, cmd := 1, extra := 0x60,
          unk := 0, flags := CMD_FLAG_READY } := by
  have hmod : ((x.c_wptr + 1) % 128 + 1) % 128 = (x.c_wptr + 2) % 128 := by omega
  set x1 : Xmm := { x with qp_open := Function.update x.qp_open n true } with hx1
  have hc1 := td_ring_create8_spec x1 (2*n) tp0 pp0 hs0 hcw hf1
  set x2 : Xmm := { x1 with
      td_ring := Function.update x1.td_ring (2*n) (ring8 tp0 pp0),
      s_rptr := Function.update x1.s_rptr (2*n) 0,
      s_wptr := Function.update x1.s_wptr (2*n) 0,
      c_ring := Function.update x1.c_ring x1.c_wptr (openEntry (2*n) tp0),
      c_wptr := (x1.c_wptr + 1) % 128 } with hx2
  have hs1' : (x2.td_ring (2*n+1)).size = 0 := by
    rw [hx2]
    show ((Function.update x1.td_ring (2*n) (ring8 tp0 pp0)) (2*n+1)).size = 0
    rw [Function.update_noteq (by omega : (2*n+1:Nat) ≠ 2*n)]
    exact hs1
  have hw2 : x2.c_wptr < 128 := by
    rw [hx2]
    show (x1.c_wptr + 1) % 128 < 128
    exact Nat.mod_lt _ (by norm_num)
  have hf2' : (x2.c_wptr + 1) % 128 ≠ x2.c_rptr := by
    rw [hx2]
    show ((x.c_wptr + 1) % 128 + 1) % 128 ≠ x.c_rptr
    rw [hmod]
    exact hf2
  have hc2 := td_ring_create8_spec x2 (2*n+1) tp1 pp1 hs1' hw2 hf2'
  set x3 : Xmm := { x2 with
      td_ring := Function.update x2.td_ring (2*n+1) (ring8 tp1 pp1),
      s_rptr := Function.update x2.s_rptr (2*n+1) 0,
      s_wptr := Function.update x2.s_wptr (2*n+1) 0,
      c_ring := Function.update x2.c_ring x2.c_wptr (openEntry (2*n+1) tp1),
      c_wptr := (x2.c_wptr + 1) % 128 } with hx3
  have hlw : x3.s_wptr (2*n+1) = 0 := by
    rw [hx3]
    show Function.update x2.s_wptr (2*n+1) 0 (2*n+1) = 0
    rw [Function.update_same]
  have hlr : x3.s_rptr (2*n+1) = 0 := by
    rw [hx3]
    show Function.update x2.s_rptr (2*n+1) 0 (2*n+1) = 0
    rw [Function.update_same]
  have hlsz : (x3.td_ring (2*n+1)).size = 8 := by
    rw [hx3]
    show ((Function.update x2.td_ring (2*n+1) (ring8 tp1 pp1)) (2*n+1)).size = 8
    rw [Function.update_same]
    rfl
  obtain ⟨y, hy, hyw, hyfull, hysz, hyout, hyqp, hyas, hycw, hycr, hycring, hysr⟩ :=
    post_loop_run (2*n+1) (by omega) 7 x3 0 (by norm_num) hlw hlr hlsz
  have hy8 : post_until_full (2*n+1) 8 x3 = some (y, postEvs (2*n+1) 0 7) := hy
  refine ⟨y, ?_, ?_, hysz, ?_, hyfull, ?_, ?_⟩
  · simp only [qp_start, hopen, Bool.false_eq_true, if_false, ite_false, ← hx1,
      hc1, ← hx2, hc2, ← hx3, hy8, DOORBELL_CMD, DOORBELL_TD]
    simp [hx1, hx2, hx3, hmod, hyas, List.append_assoc]
  · rw [hyout (2*n) (by omega), hx3]
    show ((Function.update x2.td_ring (2*n+1) (ring8 tp1 pp1)) (2*n)).size = 8
    rw [Function.update_noteq (by omega : (2*n:Nat) ≠ 2*n+1), hx2]
    show ((Function.update x1.td_ring (2*n) (ring8 tp0 pp0)) (2*n)).size = 8
    rw [Function.update_same]
    rfl
  · rw [hyqp, hx3]
    show x2.qp_open n = true
    rw [hx2]
    show x1.qp_open n = true
    rw [hx1]
    show Function.update x.qp_open n true n = true
    rw [Function.update_same]
  · rw [hycring, hx3]
    show (Function.update x2.c_ring x2.c_wptr (openEntry (2*n+1) tp1)) x.c_wptr = _
    have hk2 : x.c_wptr ≠ x2.c_wptr := by
      rw [hx2]
      show x.c_wptr ≠ (x.c_wptr + 1) % 128
      omega
    rw [Function.update_noteq hk2, hx2]
    show (Function.update x1.c_ring x1.c_wptr (openEntry (2*n) tp0)) x.c_wptr = _
    rw [show x.c_wptr = x1.c_wptr from rfl, Function.update_same]
    simp [openEntry]
    omega
  · rw [hycring, hx3]
    show (Function.update x2.c_ring x2.c_wptr (openEntry (2*n+1) tp1))
      ((x.c_wptr + 1) % 128) = _
    rw [show (x.c_wptr + 1) % 128 = x2.c_wptr from rfl, Function.update_same]
    simp [openEntry]
    omega

/-- Claim C6 (code evidence): after the first acknowledgment the code
does clear the four reserved registers and set enable mode 2, but the
re-poll loop is written `while (bar2[BAR2_MODE] != 2 && !--timeout)`:
the decremented counter (99) is nonzero, so `!--timeout` is false and
the loop exits after a single read without sleeping; the subsequent
`if (!timeout)` can then never fire.  Hence for EVERY register
behavior the enable-2 stage returns 0 after exactly one poll — in
particular for a mode register that never reads 2 (`fun _ => 0`), no
`-ETIMEDOUT` is ever declared, contradicting the documented bounded
retry (10 ms × 100 attempts then timeout). -/
theorem cmd_ring_init_repoll_bug :
    (∀ reads, (cmd_ring_init_enable2 reads).2.1 = 0 ∧
              (cmd_ring_init_enable2 reads).2.2 = 1) ∧
    cmd_ring_init_enable2 (fun _ => 0) =
      ([RegWrite.blank 0 0, RegWrite.blank 1 0, RegWrite.blank 2 0,
        RegWrite.blank 3 0, RegWrite.mode 2], 0, 1) := by
  constructor
  · intro reads
    have h1 := mode_wait2_from100 reads 149
    by_cases h : reads 0 = 2 <;>
      simp [cmd_ring_init_enable2, show (150:Nat) = 149 + 1 from rfl, h1, h]
  · rfl

/-- Witness for C4 on a concrete all-zero device state: opening pair 0
succeeds with the full expected event trace, marks the pair open and
leaves the receive ring full. -/
theorem qp_start_correct_witness :
    ∃ y : Xmm, qp_start xmm0 0 0 0 (fun _ => 0) (fun _ => 0) =
      some (0, y,
        (cmdSubmitEvs 0 1 ++ dingEvs false 1) ++
        (cmdSubmitEvs 1 2 ++ dingEvs false 1) ++
        dingEvs false 1 ++ postEvs 1 0 7 ++ dingEvs false 0) ∧
      y.qp_open 0 = true ∧ td_ring_full y 1 = true := by
  obtain ⟨y, h1, h2, h3, h4, h5, h6, h7⟩ :=
    qp_start_correct xmm0 0 0 0 (fun _ => 0) (fun _ => 0) (by norm_num) rfl rfl rfl
      (by decide) (by decide) (by decide)
  exact ⟨y, h1, h4, h5⟩

/-- Crash case of the probe status poll: if every status read before
index `i` is neither the ready nor the crash sentinel and read `i`
(within the 100-poll budget) is the crash sentinel, the poll aborts
right there, after `i + 1` reads. -/
theorem status_loop_crash_aux (reads : Nat → Nat) :
    ∀ (f a i : Nat), a + f = 100 → a ≤ i → i < 100 →
      (∀ j, a ≤ j → j < i → reads j ≠ 0x600df00d ∧ reads j ≠ 0xbadc0ded) →
      reads i = 0xbadc0ded →
      status_loop reads a f = StatusPoll.crash (i + 1) := by
  intro f
  induction f with
  | zero => intro a i ha hai hi _ _; omega
  | succ f ih =>
    intro a i ha hai hi hbefore hc
    by_cases hcase : a = i
    · subst hcase
      simp only [status_loop, hc]
      norm_num
    · have hb := hbefore a (le_refl a) (by omega)
      simp only [status_loop, if_neg hb.1, if_neg hb.2]
      exact ih (a + 1) i (by omega) (by omega) hi
        (fun j hj1 hj2 => hbefore j (by omega) hj2) hc

/-- Exhaustion case of the probe status poll: if no status read in the
whole 100-poll budget is the ready or crash sentinel, the loop runs
all 100 reads and ends holding the last read value. -/
theorem status_loop_miss_aux (reads : Nat → Nat) :
    ∀ (f a : Nat), a + f = 100 →
      (∀ j, a ≤ j → j < 100 → reads j ≠ 0x600df00d ∧ reads j ≠ 0xbadc0ded) →
      status_loop reads a f = StatusPoll.exhausted (reads 99) := by
  intro f
  induction f with
  | zero =>
    intro a ha _
    have : a = 100 := by omega
    subst this
    rfl
  | succ f ih =>
    intro a ha hmiss
    have hb := hmiss a (le_refl a) (by omega)
    simp only [status_loop, if_neg hb.1, if_neg hb.2]
    exact ih (a + 1) (by omega) (fun j hj1 hj2 => hmiss j (by omega) hj2)

/-- The four-irq request loop succeeds when every `request_irq`
returns 0. -/
theorem irq_loop_ok (env : ProbeEnv) (h : ∀ t, t < 4 → env.irq_ret t = 0) :
    ∀ (rem i : Nat) (r : Resources), i + rem = 4 →
      ∃ r', irq_loop env r i rem = Sum.inr r' := by
  intro rem
  induction rem with
  | zero => intro i r _; exact ⟨r, rfl⟩
  | succ rem ih =>
    intro i r hi
    have h0 : env.irq_ret i = 0 := h i (by omega)
    simp only [irq_loop, h0]
    norm_num
    exact ih (i + 1) _ (by omega)

/-- Claim C9 (amended): with the acquisition steps succeeding, (a) a
crash-dump sentinel observed at poll `i` (everything before it neither
ready nor crashed) makes the poll abort immediately — after exactly
`i + 1` reads, without exhausting the budget — and the probe fail with
`-EINVAL` (= -22) releasing everything; (b) a device that never
reports ready or crashed within the 100-poll budget makes the poll run
all 100 reads and the probe fail with the same generic `-EINVAL` — not
a distinct timeout code — again releasing everything; and (c) on every
failing probe run whatsoever, the resources held at the failure point
are all unwound (`xmm7360_remove`), leaving no resources allocated. -/
theorem xmm_probe_bringup_correct :
    (∀ (env : ProbeEnv) (i : Nat), env.stepsOk → i < 100 →
      (∀ j, j < i → env.statusReads j ≠ 0x600df00d ∧
        env.statusReads j ≠ 0xbadc0ded) →
      env.statusReads i = 0xbadc0ded →
      xmm_probe env = (-22, resources_none) ∧
      status_loop env.statusReads 0 100 = StatusPoll.crash (i + 1)) ∧
    (∀ (env : ProbeEnv), env.stepsOk →
      (∀ j, j < 100 → env.statusReads j ≠ 0x600df00d ∧
        env.statusReads j ≠ 0xbadc0ded) →
      xmm_probe env = (-22, resources_none) ∧
      status_loop env.statusReads 0 100 =
        StatusPoll.exhausted (env.statusReads 99)) ∧
    (∀ (env : ProbeEnv) (ret : Int) (r : Resources),
      xmm_probe env = (ret, r) → ret ≠ 0 → r = resources_none) := by
  refine ⟨?_, ?_, ?_⟩
  · intro env i hok hi hbefore hc
    obtain ⟨he, hz0, hz2, hv, hirq⟩ := hok
    have hnv : ¬ (env.vectors_ret < 0) := not_lt.mpr hv
    obtain ⟨r', hr'⟩ := irq_loop_ok env hirq 4 0 res_after_vectors (by omega)
    have hpoll := status_loop_crash_aux env.statusReads 100 0 i (by omega)
      (by omega) hi (fun j _ hj2 => hbefore j hj2) hc
    refine ⟨?_, hpoll⟩
    simp [xmm_probe, he, hz0, hz2, hnv, hr', hpoll]
    rfl
  · intro env hok hmiss
    obtain ⟨he, hz0, hz2, hv, hirq⟩ := hok
    have hnv : ¬ (env.vectors_ret < 0) := not_lt.mpr hv
    obtain ⟨r', hr'⟩ := irq_loop_ok env hirq 4 0 res_after_vectors (by omega)
    have hpoll := status_loop_miss_aux env.statusReads 100 0 (by omega)
      (fun j _ hj2 => hmiss j hj2)
    refine ⟨?_, hpoll⟩
    have h99 : env.statusReads 99 ≠ 0x600df00d := (hmiss 99 (by omega)).1
    simp [xmm_probe, he, hz0, hz2, hnv, hr', hpoll, h99]
    rfl
  · intro env ret r h hne
    simp only [xmm_probe, probe_rest] at h
    repeat' split at h
    all_goals injection h with h1 h2
    all_goals subst h2
    all_goals first
      | rfl
      | (subst h1; exact absurd rfl hne)

/-- Witness for C9 on concrete environments: a crash sentinel at poll
3 aborts after 4 reads with everything released; a never-ready device
fails with everything released; a failed enable step also leaves
nothing allocated. -/
theorem xmm_probe_bringup_correct_witness :
    xmm_probe envCrash = (-22, resources_none) ∧
    status_loop envCrash.statusReads 0 100 = StatusPoll.crash 4 ∧
    xmm_probe envTimeout = (-22, resources_none) ∧
    resources_none = resources_none := by
  have h1 := (xmm_probe_bringup_correct).1 envCrash 3
    ⟨rfl, rfl, rfl, by decide, fun t _ => rfl⟩ (by norm_num) (by decide)
    (by decide)
  have h2 := (xmm_probe_bringup_correct).2.1 envTimeout
    ⟨rfl, rfl, rfl, by decide, fun t _ => rfl⟩ (by decide)
  have h3 := (xmm_probe_bringup_correct).2.2 envFailEnable (-5) resources_none
    rfl (by norm_num)
  exact ⟨h1.1, h1.2, h2.1, h3⟩

/-- Counterexample to C9 as stated: for the concrete never-ready
device, the probe reports `-EINVAL` (= -22) — the very same code as
the crash-dump abort, produced by the post-loop "Unknown modem
status" check — and not the driver's distinct timeout code
`-ETIMEDOUT` (= -110, the code `xmm7360_cmd_ring_init` uses for its
timeout reports), so the attach does not "report Timeout"
distinguishably. -/
theorem xmm_probe_timeout_code_counterexample :
    xmm_probe envTimeout = (-22, resources_none) ∧ ((-22 : Int) = -110 → False) := by
  constructor
  · rfl
  · norm_num

end Xmm7360
